import Mathlib

/-!
Verification development for express-remote-handlebars.

The module under study has two source variants:
* `src/unnamed/part_000` — the stale-lru-cache variant: `requestTemplate`
  rejects HTTP status codes ≥ 400 and forwards the response's
  `cache-control` header to the cache.
* `src/index.js` — the cache-manager variant: `requestTemplate` performs no
  status check and ignores response headers.

Both variants share `render`, `getView`, `getPartials`, `readTemplate` and
`findTemplates` almost verbatim; the embedding below models the shared parts
once and provides both `requestTemplate` variants (suffix `Ix` marks the
`src/index.js` variant).  The cache store itself (stale-lru-cache /
cache-manager `wrap`) is a dependency whose code is not in the repository;
it is modelled from the spec (sections 3, 4.1, 4.2 and 8), as noted on the
relevant definitions.
-/

namespace RH

/-- A rendering context: the caller-supplied object, modelled as an
association list from keys to string values.  In the JavaScript source the
options object itself doubles as the context; here the context payload is
carried as its own field and the recognized option keys are separate
structure fields. -/
abbrev Context := List (String × String)

/-- A compiled template.  `this.compile` delegates to
`this.handlebars.compile`, an opaque external collaborator; a compiled
template is modelled symbolically by the source text it was compiled from
(handlebars compilation is deterministic in the source). -/
structure Tpl where
  source : String
  deriving DecidableEq, Repr

/-- The name→compiled-template mapping produced by `findTemplates`
(`templates[name] = template` on a plain object): an association list with
last-writer-wins update. -/
abbrev PartialMap := List (String × Tpl)

/-- Values stored in `this.cacheForever`: the same store holds compiled view
templates (keyed by resolved file path, from `getView`) and partial maps
(keyed by the joined directory list, from `getPartials`). -/
inductive ForeverVal where
  | tpl (t : Tpl)
  | partialMap (m : PartialMap)
  deriving DecidableEq, Repr

/-- Rendering settings passed to a compiled template: the
`{helpers, partials, data}` object built in `render`.  Helpers and data are
opaque to the core and modelled as strings. -/
structure Settings where
  helpers : Option String
  partialsOpt : Option ForeverVal
  data : Option String
  deriving DecidableEq, Repr

/-- A request descriptor (the `request` module's argument): a URL, an
optional headers map (`url.headers` may be absent), and the remaining own
fields of the object, which the core never touches. -/
structure Request where
  url : String
  headers : Option (List (String × String))
  rest : List (String × String)
  deriving DecidableEq, Repr

/-- A transport response: `{statusCode, headers, body}`. -/
structure Response where
  statusCode : Nat
  headers : List (String × String)
  body : String
  deriving DecidableEq, Repr

/-- Errors delivered to callbacks.  `configError` corresponds to the
synchronous `throw new Error('RemoteHandlebars.… expects …')` guards;
`httpStatus c` to `new Error('HTTP status code <c> received')`;
`transport`, `fsError` and `globError` wrap collaborator failures;
`typeError` models the dynamic crash of invoking a non-function. -/
inductive Err where
  | transport (msg : String)
  | httpStatus (code : Nat)
  | fsError (msg : String)
  | globError (msg : String)
  | configError (msg : String)
  | typeError (msg : String)
  deriving DecidableEq, Repr

/-- The external collaborators (spec section 6): current working directory,
HTTP transport, filesystem read, and the recursive glob
`'**/*.{handlebars,hbs}'` listing relative file paths for a directory.
Collaborators fail with plain message strings, wrapped into `Err` by the
core. -/
structure World where
  cwd : String
  fetch : Request → Except String Response
  readFile : String → Except String String
  globHbs : String → Except String (List String)

/-- Effective layout value (`options.layout` / `this.layout`): absent or
falsy, a URL string, a request descriptor, or an already compiled
template. -/
inductive LayoutVal where
  | falsy
  | url (s : String)
  | desc (r : Request)
  | func (t : Tpl)

/-- JavaScript truthiness of a layout value (`if (layout)`): `false`,
`null`, `undefined` and `''` are falsy. -/
def LayoutVal.truthy : LayoutVal → Bool
  | .falsy => false
  | .url s => s != ""
  | .desc _ => true
  | .func _ => true

def LayoutVal.isFunc : LayoutVal → Bool
  | .func _ => true
  | _ => false

/-- A `partialsDir` value: absent/falsy, a single directory string, or an
array of directory strings (a JavaScript array is truthy even when
empty). -/
inductive PDirVal where
  | falsy
  | str (s : String)
  | list (l : List String)

def PDirVal.truthy : PDirVal → Bool
  | .falsy => false
  | .str s => s != ""
  | .list _ => true

/-- `if (typeof partialsDir === 'string') partialsDir = [partialsDir]`. -/
def PDirVal.toDirs : PDirVal → List String
  | .falsy => []
  | .str s => [s]
  | .list l => l

/-! ## Association-list update

`setKey m k v` models JavaScript property assignment `m[k] = v`: replace the
binding if the key is present, append it otherwise. -/

def setKey (m : List (String × α)) (k : String) (v : α) : List (String × α) :=
  match m with
  | [] => [(k, v)]
  | (k', v') :: rest => if k' = k then (k, v) :: rest else (k', v') :: setKey rest k v

/-! ## Kernel-computable string helpers

Counterparts of `String.splitOn`, `trim`, `startsWith`, `endsWith`,
`dropRight`, `drop` and `toNat?` written by structural recursion on the
character list, so that closed instances of every definition evaluate
inside the kernel. -/

def listSplit (sep : Char) : List Char → List (List Char)
  | [] => [[]]
  | c :: rest =>
    let r := listSplit sep rest
    if c = sep then [] :: r
    else
      match r with
      | [] => [[c]]
      | g :: gs => (c :: g) :: gs

def strSplitOn (sep : Char) (s : String) : List String :=
  (listSplit sep s.data).map (fun l => ⟨l⟩)

def isPrefixL : List Char → List Char → Bool
  | [], _ => true
  | _ :: _, [] => false
  | a :: as, b :: bs => a == b && isPrefixL as bs

def strStartsWith (s pre : String) : Bool := isPrefixL pre.data s.data

def strEndsWith (s suf : String) : Bool := isPrefixL suf.data.reverse s.data.reverse

def strDrop (s : String) (n : Nat) : String := ⟨s.data.drop n⟩

def strDropRight (s : String) (n : Nat) : String := ⟨(s.data.reverse.drop n).reverse⟩

def isSpaceC (c : Char) : Bool := c == ' ' || c == '\t' || c == '\n' || c == '\r'

def trimChars (l : List Char) : List Char :=
  ((l.dropWhile isSpaceC).reverse.dropWhile isSpaceC).reverse

def strTrim (s : String) : String := ⟨trimChars s.data⟩

def digitVal (c : Char) : Option Nat :=
  if '0' ≤ c ∧ c ≤ '9' then some (c.toNat - '0'.toNat) else none

def digitsToNatAux : List Char → Nat → Option Nat
  | [], acc => some acc
  | c :: rest, acc =>
    match digitVal c with
    | none => none
    | some d => digitsToNatAux rest (acc * 10 + d)

def strToNat (s : String) : Option Nat :=
  match s.data with
  | [] => none
  | l => digitsToNatAux l 0

def joinSep (sep : String) : List String → String
  | [] => ""
  | [s] => s
  | s :: rest => s ++ sep ++ joinSep sep rest

/-! ## Freshness-aware cache

Modelled from the spec: the repository delegates caching to the
stale-lru-cache (variant `src/unnamed/part_000`) and cache-manager
(variant `src/index.js`) dependencies, whose code is not under `src/`.
The store and its `wrap` operation are translated from spec sections 3
(CacheEntry), 4.1 (FreshnessPolicy) and 4.2 (TemplateCache), with the §8
testable property that a `must-revalidate` response must not be served on
the next call.  The LRU size bound is not modelled (spec default:
unbounded); the best-effort background refresh during the
stale-while-revalidate window is unobservable in a call's result and is
omitted. -/

/-- Modelled from the spec: parsed `cache-control` directives (spec
section 3, FreshnessDirectives, plus `must-revalidate` from section 8). -/
structure Directives where
  maxAge : Option Nat
  staleWhileRevalidate : Option Nat
  noStore : Bool
  noCache : Bool
  mustRevalidate : Bool
  deriving DecidableEq, Repr

def Directives.empty : Directives := ⟨none, none, false, false, false⟩

/-- Modelled from the spec: parsing of one comma-separated `cache-control`
token. -/
def parseDirective (d : Directives) (tok : String) : Directives :=
  let t := strTrim tok
  if t = "no-store" then { d with noStore := true }
  else if t = "no-cache" then { d with noCache := true }
  else if t = "must-revalidate" then { d with mustRevalidate := true }
  else if strStartsWith t "max-age=" then { d with maxAge := strToNat (strDrop t 8) }
  else if strStartsWith t "stale-while-revalidate=" then
    { d with staleWhileRevalidate := strToNat (strDrop t 23) }
  else d

/-- Modelled from the spec: parse a `cache-control` header value. -/
def parseCacheControl (s : String) : Directives :=
  (strSplitOn ',' s).foldl parseDirective Directives.empty

/-- Modelled from the spec: a cache entry (spec section 3).  `none` stands
for an infinite expiry/staleness bound (the forever store). -/
structure CEntry (α : Type) where
  value : α
  expiresAt : Option Nat
  staleUntil : Option Nat
  deriving DecidableEq, Repr

/-- Modelled from the spec: instance-level freshness defaults
(`maxAge`, `staleWhileRevalidate`); `maxAge = none` means infinite TTL. -/
structure CacheDefaults where
  maxAge : Option Nat
  staleWhileRevalidate : Nat
  deriving DecidableEq, Repr

/-- Modelled from the spec: the keyed store of compiled-template entries. -/
structure Cache (α : Type) where
  entries : List (String × CEntry α)
  deriving DecidableEq, Repr

/-- Modelled from the spec: an entry is usable while `now < staleUntil`
(fresh or stale-but-usable); past `staleUntil` it is ignored. -/
def usableAt (now : Nat) (e : CEntry α) : Bool :=
  match e.staleUntil with
  | none => true
  | some su => now < su

/-- Modelled from the spec: FreshnessPolicy (section 4.1).  `none` means
"do not cache"; otherwise the effective `(maxAge, staleWhileRevalidate)`
pair, directives overriding instance defaults field by field. -/
def effectiveFreshness (d : CacheDefaults) (cc : Option String) :
    Option (Option Nat × Nat) :=
  match cc with
  | none => some (d.maxAge, d.staleWhileRevalidate)
  | some s =>
    let dir := parseCacheControl s
    if dir.noStore || dir.noCache || dir.mustRevalidate then none
    else some (dir.maxAge.orElse (fun _ => d.maxAge),
               dir.staleWhileRevalidate.getD d.staleWhileRevalidate)

/-- Modelled from the spec: the miss path of `readThrough`/`wrap` — invoke
the loader; on failure propagate without caching; on success store the
entry with freshness from section 4.1 (unless the policy says "do not
cache").  The third component counts loader invocations. -/
def Cache.refresh (c : Cache α) (defaults : CacheDefaults) (now : Nat)
    (key : String) (loader : Unit → Except Err (α × Option String)) :
    Except Err α × Cache α × Nat :=
  match loader () with
  | .error e => (.error e, c, 1)
  | .ok (v, cc) =>
    match effectiveFreshness defaults cc with
    | none => (.ok v, c, 1)
    | some (ma, swr) =>
      let ex := ma.map (fun a => now + a)
      let su := ex.map (fun x => x + swr)
      (.ok v, ⟨setKey c.entries key ⟨v, ex, su⟩⟩, 1)

/-- Modelled from the spec: `wrap(key, loader, callback)` — serve a usable
entry without invoking the loader, otherwise refresh. -/
def Cache.wrap (c : Cache α) (defaults : CacheDefaults) (now : Nat)
    (key : String) (loader : Unit → Except Err (α × Option String)) :
    Except Err α × Cache α × Nat :=
  match c.entries.lookup key with
  | some e => if usableAt now e then (.ok e.value, c, 0)
              else c.refresh defaults now key loader
  | none => c.refresh defaults now key loader

/-- Whether the store holds a usable entry for `key` at `now`. -/
def Cache.hasUsable (c : Cache α) (key : String) (now : Nat) : Bool :=
  match c.entries.lookup key with
  | some e => usableAt now e
  | none => false

/-- `this.cacheForever = LRU()`: infinite TTL, never stale. -/
def foreverDefaults : CacheDefaults := ⟨none, 0⟩

/-! ## Path resolution

`path.resolve` from Node: an absolute argument is normalized on its own,
a relative one is resolved against the working directory; normalization
drops empty and `.` segments and folds `..`.  The result always starts
with `/`. -/

def normSegs (l : List String) : List String :=
  l.foldl
    (fun acc seg =>
      if seg = "" ∨ seg = "." then acc
      else if seg = ".." then acc.dropLast
      else acc ++ [seg])
    []

def pathResolve (cwd p : String) : String :=
  let raw := if strStartsWith p "/" then p else cwd ++ "/" ++ p
  "/" ++ joinSep "/" (normSegs (strSplitOn '/' raw))

/-- `path.resolve(dir, file)` as used by `findTemplates` on a glob result:
an absolute file stands alone, otherwise it is joined to its directory
(which is itself resolved against the working directory). -/
def resolveIn (cwd dir file : String) : String :=
  if strStartsWith file "/" then pathResolve cwd file
  else pathResolve cwd (dir ++ "/" ++ file)

/-! ## The RemoteHandlebars instance -/

/-- Instance state set by the constructor.  `exec` is the opaque execution
of a compiled handlebars template (`template(context, settings)`);
`remoteDefaults` are the freshness defaults of `this.cache`
(`maxAge`, `staleWhileRevalidate` constructor options). -/
structure Instance where
  layout : LayoutVal
  placeholder : String
  helpers : Option String
  partialsDir : PDirVal
  remoteDefaults : CacheDefaults
  exec : Tpl → Context → Settings → String

/-- Constructor options (the recognized keys). -/
structure CtorOptions where
  layoutPresent : Bool
  layout : LayoutVal
  placeholder : String
  helpers : Option String
  partialsDir : PDirVal
  maxAge : Option Nat
  staleWhileRevalidate : Option Nat
  exec : Tpl → Context → Settings → String

/-- The constructor:
`this.layout = ('layout' in options) ? options.layout : false`,
`this.placeholder = options.placeholder || 'content'`,
`this.partialsDir = options.partialsDir || 'views/partials/'`.
The spec gives `maxAge` default 60 and `staleWhileRevalidate` default 0. -/
def mkInstance (o : CtorOptions) : Instance :=
  { layout := if o.layoutPresent then o.layout else .falsy
    placeholder := if o.placeholder = "" then "content" else o.placeholder
    helpers := o.helpers
    partialsDir := if o.partialsDir.truthy then o.partialsDir else .str "views/partials/"
    remoteDefaults := ⟨some (o.maxAge.getD 60), o.staleWhileRevalidate.getD 0⟩
    exec := o.exec }

/-! ## Loaders -/

/-- `readTemplate`: read a file and compile its content (identical in both
variants). -/
def readTemplate (w : World) (p : String) : Except Err Tpl :=
  match w.readFile p with
  | .error e => .error (.fsError e)
  | .ok content => .ok ⟨content⟩

/-- `requestTemplate`, variant `src/unnamed/part_000` (lines 169–178):
fetch; propagate transport errors; reject `statusCode >= 400` with
`'HTTP status code … received'` before compiling; otherwise compile the
body and hand back the response's `cache-control` header. -/
def requestTemplate (w : World) (r : Request) : Except Err (Tpl × Option String) :=
  match w.fetch r with
  | .error e => .error (.transport e)
  | .ok resp =>
    if resp.statusCode ≥ 400 then .error (.httpStatus resp.statusCode)
    else .ok (⟨resp.body⟩, resp.headers.lookup "cache-control")

/-- `requestTemplate`, variant `src/index.js` (lines 141–148): fetch;
propagate transport errors; compile the body unconditionally — there is no
status-code check and the response headers are never read. -/
def requestTemplateIx (w : World) (r : Request) : Except Err (Tpl × Option String) :=
  match w.fetch r with
  | .error e => .error (.transport e)
  | .ok resp => .ok (⟨resp.body⟩, none)

/-! ## getLayout -/

/-- The layout argument accepted by `getLayout` (after `render` has
filtered out function-valued layouts): absent/falsy, a URL string, or a
request descriptor. -/
inductive LayoutUrl where
  | nil
  | str (s : String)
  | desc (r : Request)

def LayoutUrl.truthy : LayoutUrl → Bool
  | .nil => false
  | .str s => s != ""
  | .desc _ => true

/-- `if (typeof url === 'string') url = {url: url}`. -/
def LayoutUrl.toRequest : LayoutUrl → Request
  | .str s => ⟨s, none, []⟩
  | .desc r => r
  | .nil => ⟨"", none, []⟩

/-- Projection used where `render` dispatches to `getLayout`: a
function-valued layout never reaches `getLayout` (the `.func` case maps to
`.nil`; a direct `getLayout` call with a function-valued `this.layout`
fallback is a dynamic-typing corner the model does not cover). -/
def LayoutVal.toUrl : LayoutVal → LayoutUrl
  | .falsy => .nil
  | .url s => .str s
  | .desc r => .desc r
  | .func _ => .nil

def acceptHeader : String := "text/x-handlebars-template"

/-- `url.headers || (url.headers = {}); url.headers['Accept'] = …` —
the in-place mutation of the caller's request descriptor. -/
def ensureAccept (r : Request) : Request :=
  { r with headers := some (setKey (r.headers.getD []) "Accept" acceptHeader) }

/-- `url || (url = this.layout)`. -/
def effLayoutUrl (inst : Instance) (u : LayoutUrl) : LayoutUrl :=
  if u.truthy then u else inst.layout.toUrl

/-- The request descriptor `getLayout` builds and fetches with. -/
def layoutDesc (inst : Instance) (u : LayoutUrl) : Request :=
  ensureAccept (effLayoutUrl inst u).toRequest

/-- Outcome of a `getLayout` call: the callback result, the (mutated)
request descriptor, the remote cache afterwards, and how many fetches were
attempted. -/
structure GetLayoutOut where
  result : Except Err Tpl
  desc : Option Request
  cache : Cache Tpl
  fetches : Nat

/-- `getLayout` (part_000 lines 75–108): fall back to `this.layout`, throw
without one, ensure the Accept header, then either bypass the store
(`cache: false` drops the third callback argument) or go through
`this.cache.wrap` keyed by `url.url`. -/
def getLayout (inst : Instance) (w : World) (now : Nat) (rc : Cache Tpl)
    (u : LayoutUrl) (cacheOff : Bool) : GetLayoutOut :=
  let eff := effLayoutUrl inst u
  if eff.truthy then
    let d := layoutDesc inst u
    if cacheOff then
      ⟨(requestTemplate w d).map Prod.fst, some d, rc, 1⟩
    else
      let out := rc.wrap inst.remoteDefaults now d.url (fun _ => requestTemplate w d)
      ⟨out.1, some d, out.2.1, out.2.2⟩
  else
    ⟨.error (.configError "RemoteHandlebars.getLayout expects url or this.layout"),
     none, rc, 0⟩

/-- `getLayout`, variant `src/index.js` (lines 67–93): identical shape but
the loader is the variant's `requestTemplate`, which supplies no
`cache-control`, so entries are always stored with the instance
defaults. -/
def getLayoutIx (inst : Instance) (w : World) (now : Nat) (rc : Cache Tpl)
    (u : LayoutUrl) (cacheOff : Bool) : GetLayoutOut :=
  let eff := effLayoutUrl inst u
  if eff.truthy then
    let d := layoutDesc inst u
    if cacheOff then
      ⟨(requestTemplateIx w d).map Prod.fst, some d, rc, 1⟩
    else
      let out := rc.wrap inst.remoteDefaults now d.url (fun _ => requestTemplateIx w d)
      ⟨out.1, some d, out.2.1, out.2.2⟩
  else
    ⟨.error (.configError "RemoteHandlebars.getLayout expects url or this.layout"),
     none, rc, 0⟩

/-! ## getView -/

structure GetViewOut where
  result : Except Err ForeverVal
  cache : Cache ForeverVal
  reads : Nat

/-- `getView` (part_000 lines 111–132): `filePath = path.resolve(filePath)`
before the emptiness guard; `cache: false` reads directly, otherwise the
forever store is keyed by the resolved path.  The forever store never
expires, so the clock argument of `wrap` is irrelevant and fixed at 0. -/
def getView (w : World) (fc : Cache ForeverVal) (filePath : String)
    (cacheOff : Bool) : GetViewOut :=
  let resolved := pathResolve w.cwd filePath
  if resolved = "" then
    ⟨.error (.configError "RemoteHandlebars.getView expects filePath"), fc, 0⟩
  else if cacheOff then
    ⟨(readTemplate w resolved).map ForeverVal.tpl, fc, 1⟩
  else
    let out := fc.wrap foreverDefaults 0 resolved
      (fun _ => (readTemplate w resolved).map (fun t => (ForeverVal.tpl t, none)))
    ⟨out.1, out.2.1, out.2.2⟩

/-! ## findTemplates / getPartials -/

/-- `file.replace(/\.(handlebars|hbs)$/, '')`. -/
def stripExt (file : String) : String :=
  if strEndsWith file ".handlebars" then strDropRight file 11
  else if strEndsWith file ".hbs" then strDropRight file 4
  else file

/-- Process one directory's glob results in list order: read and compile
each file, then `templates[name] = template`.  (In the source the reads of
one directory run under `async.each` and may complete in any order; the
claims only concern cross-directory override, which `async.reduce` keeps
sequential.) -/
def runFiles (w : World) (dir : String) : List String → PartialMap →
    Except Err PartialMap
  | [], ts => .ok ts
  | f :: rest, ts =>
    match readTemplate w (resolveIn w.cwd dir f) with
    | .error e => .error e
    | .ok t => runFiles w dir rest (setKey ts (stripExt f) t)

/-- `async.reduce(paths, {}, …)`: directories processed sequentially in
caller order, threading the accumulated template map. -/
def runDirs (w : World) : List String → PartialMap → Except Err PartialMap
  | [], ts => .ok ts
  | d :: rest, ts =>
    match w.globHbs d with
    | .error e => .error (.globError e)
    | .ok files =>
      match runFiles w d files ts with
      | .error e => .error e
      | .ok ts' => runDirs w rest ts'

/-- `findTemplates` (part_000 lines 189–208). -/
def findTemplates (w : World) (dirs : List String) : Except Err PartialMap :=
  runDirs w dirs []

structure GetPartialsOut where
  result : Except Err ForeverVal
  cache : Cache ForeverVal
  scans : Nat

/-- `options.partialsDir || this.partialsDir`. -/
def effPDir (inst : Instance) (pd : PDirVal) : PDirVal :=
  if pd.truthy then pd else inst.partialsDir

/-- `getPartials` (part_000 lines 134–163): fall back to
`this.partialsDir`, throw without one, wrap a lone string into a list;
`cache: false` rescans directly, otherwise the forever store is keyed by
`partialsDir.join('')`. -/
def getPartials (inst : Instance) (w : World) (fc : Cache ForeverVal)
    (pd : PDirVal) (cacheOff : Bool) : GetPartialsOut :=
  let eff := effPDir inst pd
  if eff.truthy then
    let dirs := eff.toDirs
    if cacheOff then
      ⟨(findTemplates w dirs).map ForeverVal.partialMap, fc, 1⟩
    else
      let out := fc.wrap foreverDefaults 0 (String.join dirs)
        (fun _ => (findTemplates w dirs).map (fun m => (ForeverVal.partialMap m, none)))
      ⟨out.1, out.2.1, out.2.2⟩
  else
    ⟨.error (.configError
       "RemoteHandlebars.getPartials expects partialsDir or this.partialsDir"),
     fc, 0⟩

/-! ## render

`async.parallel` interleaves the three I/O-bound branches on one event
loop; the model runs them in dispatch order (view, layout, partials),
threading the shared stores.  The branches touch disjoint keys in the
claims at hand; the reported error is the first failing branch in dispatch
order where the source reports the temporally first. -/

/-- The per-call options object of `render` (which doubles as the render
context; the context payload is the `ctx` field). -/
structure RenderIn where
  layoutPresent : Bool
  layout : LayoutVal
  placeholder : String
  helpers : Option String
  partialsDir : PDirVal
  data : Option String
  cacheOff : Bool
  ctx : Context

/-- `('layout' in options) ? options.layout : this.layout`. -/
def effLayout (inst : Instance) (o : RenderIn) : LayoutVal :=
  if o.layoutPresent then o.layout else inst.layout

/-- `options.placeholder || this.placeholder`. -/
def effPlaceholder (inst : Instance) (o : RenderIn) : String :=
  if o.placeholder = "" then inst.placeholder else o.placeholder

/-- The `tasks` object of `render`: `{view}` always, `layout` added when
the effective layout is truthy, `partials` added when the effective
partialsDir is truthy. -/
structure RTasks where
  view : Bool
  layout : Bool
  partialsT : Bool
  deriving DecidableEq, Repr

/-- Branch L (part_000): `layoutTask` resolves a function layout directly,
otherwise calls `getLayout`; no task is added for a falsy layout. -/
def layoutBranch (inst : Instance) (w : World) (now : Nat) (rc : Cache Tpl)
    (layout : LayoutVal) (cacheOff : Bool) :
    Option (Except Err Tpl) × Cache Tpl × Nat :=
  if layout.truthy then
    match layout with
    | .func t => (some (.ok t), rc, 0)
    | l => let g := getLayout inst w now rc l.toUrl cacheOff
           (some g.result, g.cache, g.fetches)
  else (none, rc, 0)

/-- Branch L, variant `src/index.js`: the task is only added `if (layout &&
typeof layout !== 'function')`; a function layout is patched into
`results.layout` after the join (behaviourally the same). -/
def layoutBranchIx (inst : Instance) (w : World) (now : Nat) (rc : Cache Tpl)
    (layout : LayoutVal) (cacheOff : Bool) :
    Option (Except Err Tpl) × Cache Tpl × Nat :=
  if layout.truthy && !layout.isFunc then
    let g := getLayoutIx inst w now rc layout.toUrl cacheOff
    (some g.result, g.cache, g.fetches)
  else (none, rc, 0)

/-- Branch P: added when the effective partialsDir is truthy. -/
def partialsBranch (inst : Instance) (w : World) (fc : Cache ForeverVal)
    (pd : PDirVal) (cacheOff : Bool) :
    Option (Except Err ForeverVal) × Cache ForeverVal × Nat :=
  if pd.truthy then
    let g := getPartials inst w fc pd cacheOff
    (some g.result, g.cache, g.scans)
  else (none, fc, 0)

/-- Join one optional branch: an undispatched branch contributes no result,
a dispatched one propagates its error. -/
def joinOpt : Option (Except Err α) → Except Err (Option α)
  | none => .ok none
  | some (.error e) => .error e
  | some (.ok a) => .ok (some a)

/-- The composition step of `render` (part_000 lines 50–60): invoke the
view with the context; if a layout was resolved, write the intermediate
string into `context[placeholder]` and invoke the layout with the mutated
context and the same settings.  Invoking a stored partial map as the view
is the dynamic `TypeError` of `results.view(context, settings)`. -/
def composeRender (inst : Instance) (ph : String) (ctx : Context)
    (st : Settings) (v : ForeverVal) (l : Option Tpl) :
    Except Err (String × Context) :=
  match v with
  | .tpl tv =>
    let rendered := inst.exec tv ctx st
    match l with
    | none => .ok (rendered, ctx)
    | some tl =>
      let ctx2 := setKey ctx ph rendered
      .ok (inst.exec tl ctx2 st, ctx2)
  | .partialMap _ => .error (.typeError "results.view is not a function")

structure RenderOut where
  tasks : RTasks
  result : Except Err String
  ctx : Context
  remoteCache : Cache Tpl
  foreverCache : Cache ForeverVal
  fetches : Nat
  reads : Nat
  scans : Nat

/-- `render` (part_000 lines 35–73). -/
def render (inst : Instance) (w : World) (now : Nat) (rc : Cache Tpl)
    (fc : Cache ForeverVal) (filePath : String) (o : RenderIn) : RenderOut :=
  let layout := effLayout inst o
  let ph := effPlaceholder inst o
  let helpers := o.helpers.orElse (fun _ => inst.helpers)
  let pd := effPDir inst o.partialsDir
  let tasks : RTasks := ⟨true, layout.truthy, pd.truthy⟩
  let vOut := getView w fc filePath o.cacheOff
  let lOut := layoutBranch inst w now rc layout o.cacheOff
  let pOut := partialsBranch inst w vOut.cache pd o.cacheOff
  let res : Except Err (String × Context) :=
    match vOut.result with
    | .error e => .error e
    | .ok v =>
      match joinOpt lOut.1 with
      | .error e => .error e
      | .ok lOk =>
        match joinOpt pOut.1 with
        | .error e => .error e
        | .ok pOk => composeRender inst ph o.ctx ⟨helpers, pOk, o.data⟩ v lOk
  { tasks := tasks
    result := res.map Prod.fst
    ctx := match res with | .ok pr => pr.2 | .error _ => o.ctx
    remoteCache := lOut.2.1
    foreverCache := pOut.2.1
    fetches := lOut.2.2
    reads := vOut.reads
    scans := pOut.2.2 }

/-- `render`, variant `src/index.js` (lines 36–65): as `render`, but a
function layout bypasses the task list and is patched into the results
after the join, and the layout task uses the variant's `getLayout`. -/
def renderIx (inst : Instance) (w : World) (now : Nat) (rc : Cache Tpl)
    (fc : Cache ForeverVal) (filePath : String) (o : RenderIn) : RenderOut :=
  let layout := effLayout inst o
  let ph := effPlaceholder inst o
  let helpers := o.helpers.orElse (fun _ => inst.helpers)
  let pd := effPDir inst o.partialsDir
  let tasks : RTasks := ⟨true, layout.truthy && !layout.isFunc, pd.truthy⟩
  let vOut := getView w fc filePath o.cacheOff
  let lOut := layoutBranchIx inst w now rc layout o.cacheOff
  let pOut := partialsBranch inst w vOut.cache pd o.cacheOff
  let lRes : Option (Except Err Tpl) :=
    match layout with
    | .func t => some (.ok t)
    | _ => lOut.1
  let res : Except Err (String × Context) :=
    match vOut.result with
    | .error e => .error e
    | .ok v =>
      match joinOpt lRes with
      | .error e => .error e
      | .ok lOk =>
        match joinOpt pOut.1 with
        | .error e => .error e
        | .ok pOk => composeRender inst ph o.ctx ⟨helpers, pOk, o.data⟩ v lOk
  { tasks := tasks
    result := res.map Prod.fst
    ctx := match res with | .ok pr => pr.2 | .error _ => o.ctx
    remoteCache := lOut.2.1
    foreverCache := pOut.2.1
    fetches := lOut.2.2
    reads := vOut.reads
    scans := pOut.2.2 }

/-! ## Concrete fixtures for witnesses and counterexamples -/

/-- A concrete template execution: a template renders as its own source. -/
def cExec : Tpl → Context → Settings → String := fun t _ _ => t.source

/-- A concrete instance with a remote layout URL configured. -/
def cInst : Instance :=
  { layout := .url "http://x/l", placeholder := "content", helpers := none,
    partialsDir := .falsy, remoteDefaults := ⟨some 60, 0⟩, exec := cExec }

/-- A world whose transport answers every fetch with HTTP 404 and body
`"NF"`, and whose filesystem holds one view file. -/
def cW404 : World :=
  { cwd := "/app",
    fetch := fun _ => .ok ⟨404, [], "NF"⟩,
    readFile := fun p => if p = "/app/v.hbs" then .ok "V" else .error "ENOENT",
    globHbs := fun _ => .error "no glob" }

/-- A world whose transport answers every fetch with HTTP 200, body
`"L"`, and a `cache-control: no-store` header. -/
def cWns : World :=
  { cwd := "/app",
    fetch := fun _ => .ok ⟨200, [("cache-control", "no-store")], "L"⟩,
    readFile := fun _ => .error "ENOENT",
    globHbs := fun _ => .error "no glob" }

/-- A world for partial resolution: every directory globs to no files. -/
def cWempty : World :=
  { cwd := "/app",
    fetch := fun _ => .error "no fetch",
    readFile := fun _ => .error "ENOENT",
    globHbs := fun _ => .ok [] }

/-- A world with a view file, a layout URL and two partial directories
that both define the partial `x`. -/
def cW6 : World :=
  { cwd := "/app",
    fetch := fun r => if r.url = "http://x/l" then .ok ⟨200, [], "LAY"⟩ else .error "no",
    readFile := fun p =>
      if p = "/app/v.hbs" then .ok "V"
      else if p = "/app/A/x.hbs" then .ok "bodyA"
      else if p = "/app/B/x.handlebars" then .ok "bodyB"
      else .error "ENOENT",
    globHbs := fun d =>
      if d = "A" then .ok ["x.hbs"]
      else if d = "B" then .ok ["x.handlebars"]
      else .error "no glob" }

/-- Per-call options with nothing overridden and an empty context. -/
def cO : RenderIn :=
  { layoutPresent := false, layout := .falsy, placeholder := "", helpers := none,
    partialsDir := .falsy, data := none, cacheOff := false, ctx := [] }

/-- A caller-supplied request descriptor with a pre-set Accept header, an
extra header, and another descriptor field. -/
def cReq : Request :=
  ⟨"http://x/l", some [("Accept", "text/html"), ("X-Trace", "7")], [("method", "GET")]⟩

/-- Per-call options overriding the placeholder to `body` and requesting
two partial directories. -/
def cO4 : RenderIn :=
  { layoutPresent := false, layout := .falsy, placeholder := "body", helpers := none,
    partialsDir := .list ["A", "B"], data := none, cacheOff := false, ctx := [] }

/-- Per-call options explicitly disabling the layout (`layout: false`). -/
def cO5 : RenderIn :=
  { layoutPresent := true, layout := .falsy, placeholder := "", helpers := none,
    partialsDir := .falsy, data := none, cacheOff := false, ctx := [] }

/-! ## Supporting lemmas -/

theorem lookup_setKey_self (m : List (String × α)) (k : String) (v : α) :
    (setKey m k v).lookup k = some v := by
  induction m with
  | nil => simp [setKey, List.lookup]
  | cons hd tl ih =>
    obtain ⟨k', v'⟩ := hd
    by_cases h : k' = k
    · subst h
      simp [setKey, List.lookup]
    · have hb : (k == k') = false := beq_eq_false_iff_ne.mpr (fun hh => h hh.symm)
      simp [setKey, h, List.lookup, hb, ih]

theorem lookup_setKey_ne (m : List (String × α)) (k k' : String) (v : α)
    (h : k' ≠ k) : (setKey m k v).lookup k' = m.lookup k' := by
  have hb : (k' == k) = false := beq_eq_false_iff_ne.mpr h
  induction m with
  | nil => simp [setKey, List.lookup, hb]
  | cons hd tl ih =>
    obtain ⟨k₀, v₀⟩ := hd
    by_cases h₀ : k₀ = k
    · subst h₀
      simp [setKey, List.lookup, hb]
    · simp [setKey, h₀, List.lookup, ih]

theorem pathResolve_ne_empty (cwd p : String) : pathResolve cwd p ≠ "" := by
  intro h
  have := congrArg String.length h
  simp [pathResolve, String.length_append] at this
  exact absurd this.1 (by decide)

/-- A store with no usable entry refreshes. -/
theorem wrap_at_miss {α : Type} (c : Cache α) (df : CacheDefaults) (now : Nat)
    (key : String) (loader : Unit → Except Err (α × Option String))
    (h : c.hasUsable key now = false) :
    c.wrap df now key loader = c.refresh df now key loader := by
  cases hl : c.entries.lookup key with
  | none =>
    unfold Cache.wrap
    rw [hl]
  | some e =>
    unfold Cache.hasUsable at h
    rw [hl] at h
    simp only [] at h
    unfold Cache.wrap
    rw [hl]
    simp [h]

/-- An entry unusable now stays unusable later. -/
theorem hasUsable_mono {α : Type} (c : Cache α) (key : String) (now now' : Nat)
    (hle : now ≤ now') (h : c.hasUsable key now = false) :
    c.hasUsable key now' = false := by
  unfold Cache.hasUsable at h ⊢
  cases hl : c.entries.lookup key with
  | none => rfl
  | some e =>
    rw [hl] at h
    have h' : usableAt now e = false := h
    show usableAt now' e = false
    unfold usableAt at h' ⊢
    cases hsu : e.staleUntil with
    | none => rw [hsu] at h'; simp at h'
    | some su =>
      rw [hsu] at h'
      simp only [decide_eq_false_iff_not, Nat.not_lt] at h'
      simp only [decide_eq_false_iff_not, Nat.not_lt]
      exact le_trans h' hle

/-- Any error a cache refresh reports came from its loader. -/
theorem refresh_error_from_loader {α : Type} (c : Cache α) (df : CacheDefaults)
    (now : Nat) (key : String) (loader : Unit → Except Err (α × Option String))
    (e : Err) (h : (c.refresh df now key loader).1 = .error e) :
    loader () = .error e := by
  unfold Cache.refresh at h
  cases hld : loader () with
  | error e' =>
    rw [hld] at h
    simp at h
    rw [h]
  | ok p =>
    obtain ⟨v, cc⟩ := p
    rw [hld] at h
    simp only [] at h
    cases hf : effectiveFreshness df cc with
    | none => rw [hf] at h; simp at h
    | some pr =>
      obtain ⟨ma, swr⟩ := pr
      rw [hf] at h
      simp at h

/-- Any error a `wrap` call reports came from its loader. -/
theorem wrap_error_from_loader {α : Type} (c : Cache α) (df : CacheDefaults)
    (now : Nat) (key : String) (loader : Unit → Except Err (α × Option String))
    (e : Err) (h : (c.wrap df now key loader).1 = .error e) :
    loader () = .error e := by
  unfold Cache.wrap at h
  cases hl : c.entries.lookup key with
  | none =>
    rw [hl] at h
    exact refresh_error_from_loader c df now key loader e h
  | some en =>
    rw [hl] at h
    simp only [] at h
    by_cases hu : usableAt now en = true
    · rw [if_pos hu] at h
      simp at h
    · rw [if_neg hu] at h
      exact refresh_error_from_loader c df now key loader e h

theorem joinOpt_none {α : Type} : joinOpt (none : Option (Except Err α)) = .ok none := rfl

theorem joinOpt_some_ok {α : Type} (a : α) :
    joinOpt (some (.ok a)) = (.ok (some a) : Except Err (Option α)) := rfl

theorem joinOpt_some_error {α : Type} (e : Err) :
    joinOpt (some (.error e)) = (.error e : Except Err (Option α)) := rfl

theorem layoutBranch_not_truthy (inst : Instance) (w : World) (now : Nat)
    (rc : Cache Tpl) (layout : LayoutVal) (off : Bool)
    (h : layout.truthy = false) :
    layoutBranch inst w now rc layout off = (none, rc, 0) := by
  simp [layoutBranch, h]

/-- A refresh always invokes the loader exactly once. -/
theorem refresh_invokes_loader {α : Type} (c : Cache α) (df : CacheDefaults)
    (now : Nat) (key : String)
    (loader : Unit → Except Err (α × Option String)) :
    (Cache.refresh c df now key loader).2.2 = 1 := by
  unfold Cache.refresh
  cases hld : loader () with
  | error e => rfl
  | ok p =>
    obtain ⟨v, cc⟩ := p
    simp only []
    cases effectiveFreshness df cc with
    | none => rfl
    | some pr => obtain ⟨ma, swr⟩ := pr; rfl

theorem effPDir_truthy (inst : Instance) (pd : PDirVal)
    (h : pd.truthy = true) : effPDir inst pd = pd := by
  simp [effPDir, h]

/-! ## Claims -/

/-- C9: a `getLayout` call with a caller-supplied request-descriptor object
mutates that object in place: afterwards its headers map an `Accept` entry
to `text/x-handlebars-template` (overwriting any caller-set Accept value),
while every other header key, the URL and the remaining descriptor fields
are unchanged. -/
theorem spec_c9_getLayout_mutates_descriptor (inst : Instance) (w : World)
    (now : Nat) (rc : Cache Tpl) (r0 : Request) (cacheOff : Bool) :
    ∃ d : Request,
      (getLayout inst w now rc (.desc r0) cacheOff).desc = some d ∧
      d.url = r0.url ∧
      d.rest = r0.rest ∧
      (d.headers.getD []).lookup "Accept" = some acceptHeader ∧
      ∀ k : String, k ≠ "Accept" →
        (d.headers.getD []).lookup k = (r0.headers.getD []).lookup k := by
  refine ⟨ensureAccept r0, ?_, rfl, rfl, ?_, ?_⟩
  · cases cacheOff <;> rfl
  · simp [ensureAccept, lookup_setKey_self]
  · intro k hk
    simp [ensureAccept, lookup_setKey_ne _ _ _ _ hk]

/-- C9 witness: on a concrete descriptor with a caller-set Accept header
and an extra header, the call overwrites Accept and keeps the other
header. -/
theorem spec_c9_witness :
    ∃ d : Request,
      (getLayout cInst cWns 0 ⟨[]⟩ (.desc cReq) false).desc = some d ∧
      (d.headers.getD []).lookup "Accept" = some acceptHeader ∧
      (d.headers.getD []).lookup "X-Trace" = some "7" := by
  obtain ⟨d, h1, _, _, h4, h5⟩ :=
    spec_c9_getLayout_mutates_descriptor cInst cWns 0 ⟨[]⟩ cReq false
  refine ⟨d, h1, h4, ?_⟩
  rw [h5 "X-Trace" (by decide)]
  rfl

/-- Every error `getView` reports is a filesystem error: the
`'expects filePath'` guard is unreachable because the resolved path is
never empty. -/
theorem getView_error_shape (w : World) (fc : Cache ForeverVal)
    (filePath : String) (cacheOff : Bool) (e : Err)
    (h : (getView w fc filePath cacheOff).result = .error e) :
    ∃ m, e = Err.fsError m := by
  have hne := pathResolve_ne_empty w.cwd filePath
  unfold getView at h
  rw [if_neg hne] at h
  by_cases hc : cacheOff = true
  · rw [if_pos hc] at h
    simp only [] at h
    unfold readTemplate at h
    cases hr : w.readFile (pathResolve w.cwd filePath) with
    | error m =>
      rw [hr] at h
      simp [Except.map] at h
      exact ⟨m, h.symm⟩
    | ok content =>
      rw [hr] at h
      simp [Except.map] at h
  · rw [if_neg hc] at h
    simp only [] at h
    have hld := wrap_error_from_loader _ _ _ _ _ _ h
    unfold readTemplate at hld
    cases hr : w.readFile (pathResolve w.cwd filePath) with
    | error m =>
      rw [hr] at hld
      simp [Except.map] at hld
      exact ⟨m, hld.symm⟩
    | ok content =>
      rw [hr] at hld
      simp [Except.map] at hld

/-- C10: for every string `filePath` (including the empty string),
`getView` never reports its `'expects filePath'` error: the path is
resolved to an absolute path before the emptiness guard, and the resolved
path is never the empty string, so that branch is unreachable. -/
theorem spec_c10_getView_guard_unreachable (w : World) (fc : Cache ForeverVal)
    (filePath : String) (cacheOff : Bool) :
    pathResolve w.cwd filePath ≠ "" ∧
    (getView w fc filePath cacheOff).result ≠
      .error (.configError "RemoteHandlebars.getView expects filePath") := by
  refine ⟨pathResolve_ne_empty w.cwd filePath, ?_⟩
  intro h
  obtain ⟨m, hm⟩ := getView_error_shape w fc filePath cacheOff _ h
  cases hm

/-- C10 witness: the guard is not hit even for the empty file path. -/
theorem spec_c10_witness :
    (getView cW404 ⟨[]⟩ "" false).result ≠
      .error (.configError "RemoteHandlebars.getView expects filePath") :=
  (spec_c10_getView_guard_unreachable cW404 ⟨[]⟩ "" false).2

/-- C3: `cache: false` bypasses the store in all three getters: the cache
state is returned unchanged, the loader runs exactly once, and the result
is computed directly from the fetch / file read / directory scan,
independently of the cache contents — so two consecutive disabled calls
each perform the full work again. -/
theorem spec_c3_cache_false_bypasses_store (inst : Instance) (w : World)
    (now : Nat) (rc : Cache Tpl) (fc fc' : Cache ForeverVal)
    (u : LayoutUrl) (hu : (effLayoutUrl inst u).truthy = true)
    (fp : String) (pd : PDirVal) (hp : (effPDir inst pd).truthy = true) :
    (getLayout inst w now rc u true).cache = rc ∧
    (getLayout inst w now rc u true).fetches = 1 ∧
    (getLayout inst w now rc u true).result =
      (requestTemplate w (layoutDesc inst u)).map Prod.fst ∧
    (getView w fc fp true).cache = fc ∧
    (getView w fc fp true).reads = 1 ∧
    (getView w fc fp true).result =
      (readTemplate w (pathResolve w.cwd fp)).map ForeverVal.tpl ∧
    (getPartials inst w fc' pd true).cache = fc' ∧
    (getPartials inst w fc' pd true).scans = 1 ∧
    (getPartials inst w fc' pd true).result =
      (findTemplates w (effPDir inst pd).toDirs).map ForeverVal.partialMap := by
  have hne := pathResolve_ne_empty w.cwd fp
  unfold getLayout getView getPartials
  simp [hu, hp, hne]

/-- C3 witness: disabled-cache calls on concrete inputs leave the empty
stores empty and run their loaders once. -/
theorem spec_c3_witness :
    (getLayout cInst cW404 0 ⟨[]⟩ (.str "http://x/l") true).cache = (⟨[]⟩ : Cache Tpl) ∧
    (getLayout cInst cW404 0 ⟨[]⟩ (.str "http://x/l") true).fetches = 1 ∧
    (getView cW404 ⟨[]⟩ "v.hbs" true).reads = 1 ∧
    (getPartials cInst cW404 ⟨[]⟩ (.list ["A"]) true).scans = 1 := by
  obtain ⟨h1, h2, _, _, h5, _, _, h8, _⟩ :=
    spec_c3_cache_false_bypasses_store cInst cW404 0 ⟨[]⟩ ⟨[]⟩ ⟨[]⟩
      (.str "http://x/l") (by decide) "v.hbs" (.list ["A"]) (by decide)
  exact ⟨h1, h2, h5, h8⟩

/-- C7: the partials branch of `render` is dispatched exactly when the
effective partials source (per-call `partialsDir`, falling back to the
instance value) is truthy; with no partials source the branch never runs —
no scan happens and the forever store is left as the view branch left
it. -/
theorem spec_c7_partials_branch_iff_configured (inst : Instance) (w : World)
    (now : Nat) (rc : Cache Tpl) (fc : Cache ForeverVal) (fp : String)
    (o : RenderIn) :
    (render inst w now rc fc fp o).tasks.partialsT =
      (effPDir inst o.partialsDir).truthy ∧
    ((effPDir inst o.partialsDir).truthy = false →
      (render inst w now rc fc fp o).scans = 0 ∧
      (render inst w now rc fc fp o).foreverCache =
        (getView w fc fp o.cacheOff).cache) := by
  refine ⟨rfl, fun h => ⟨?_, ?_⟩⟩
  · simp [render, partialsBranch, h]
  · simp [render, partialsBranch, h]

/-- C7 witness: with no partials source configured anywhere, the partials
task is not dispatched and nothing is scanned. -/
theorem spec_c7_witness :
    (render cInst cW404 0 ⟨[]⟩ ⟨[]⟩ "v.hbs" cO).tasks.partialsT = false ∧
    (render cInst cW404 0 ⟨[]⟩ ⟨[]⟩ "v.hbs" cO).scans = 0 := by
  obtain ⟨h1, h2⟩ :=
    spec_c7_partials_branch_iff_configured cInst cW404 0 ⟨[]⟩ ⟨[]⟩ "v.hbs" cO
  exact ⟨h1.trans rfl, (h2 rfl).1⟩

/-- C5: with a falsy effective layout (per-call `layout` falsy, or absent
with a falsy instance layout), the layout task is never dispatched, the
placeholder key is never written into the context, and the render output
is the view template's own rendering. -/
theorem spec_c5_render_without_layout (inst : Instance) (w : World) (now : Nat)
    (rc : Cache Tpl) (fc : Cache ForeverVal) (fp : String) (o : RenderIn)
    (hl : (effLayout inst o).truthy = false)
    (tv : Tpl)
    (hv : (getView w fc fp o.cacheOff).result = .ok (.tpl tv))
    (pOk : Option ForeverVal)
    (hp : joinOpt (partialsBranch inst w (getView w fc fp o.cacheOff).cache
            (effPDir inst o.partialsDir) o.cacheOff).1 = .ok pOk) :
    (render inst w now rc fc fp o).tasks.layout = false ∧
    (render inst w now rc fc fp o).ctx = o.ctx ∧
    (render inst w now rc fc fp o).result =
      .ok (inst.exec tv o.ctx
        ⟨o.helpers.orElse (fun _ => inst.helpers), pOk, o.data⟩) := by
  have hlb0 := layoutBranch_not_truthy inst w now rc (effLayout inst o) o.cacheOff hl
  refine ⟨?_, ?_, ?_⟩
  · simp [render, hl]
  · simp [render, hlb0, hv, hp, joinOpt_none, composeRender]
  · simp [render, hlb0, hv, hp, joinOpt_none, composeRender, Except.map]

/-- C5 witness: a per-call `layout: false` renders the view alone and
leaves the context untouched. -/
theorem spec_c5_witness :
    (render cInst cW404 0 ⟨[]⟩ ⟨[]⟩ "v.hbs" cO5).result = .ok "V" ∧
    (render cInst cW404 0 ⟨[]⟩ ⟨[]⟩ "v.hbs" cO5).ctx = [] := by
  obtain ⟨_, h2, h3⟩ :=
    spec_c5_render_without_layout cInst cW404 0 ⟨[]⟩ ⟨[]⟩ "v.hbs" cO5 rfl
      ⟨"V"⟩ rfl none rfl
  exact ⟨h3.trans rfl, h2.trans rfl⟩

/-- C4: when a layout is resolved, the view is invoked first with the
render context, its output is written into `context[placeholder]` (the
per-call placeholder overriding the instance default), and the final
output is the layout template invoked with that mutated context and the
same settings. -/
theorem spec_c4_render_with_layout (inst : Instance) (w : World) (now : Nat)
    (rc : Cache Tpl) (fc : Cache ForeverVal) (fp : String) (o : RenderIn)
    (tv tl : Tpl) (pOk : Option ForeverVal)
    (hv : (getView w fc fp o.cacheOff).result = .ok (.tpl tv))
    (hlb : (layoutBranch inst w now rc (effLayout inst o) o.cacheOff).1 =
      some (.ok tl))
    (hp : joinOpt (partialsBranch inst w (getView w fc fp o.cacheOff).cache
            (effPDir inst o.partialsDir) o.cacheOff).1 = .ok pOk) :
    (render inst w now rc fc fp o).result =
      .ok (inst.exec tl
        (setKey o.ctx (effPlaceholder inst o)
          (inst.exec tv o.ctx ⟨o.helpers.orElse (fun _ => inst.helpers), pOk, o.data⟩))
        ⟨o.helpers.orElse (fun _ => inst.helpers), pOk, o.data⟩) ∧
    (render inst w now rc fc fp o).ctx =
      setKey o.ctx (effPlaceholder inst o)
        (inst.exec tv o.ctx ⟨o.helpers.orElse (fun _ => inst.helpers), pOk, o.data⟩) := by
  constructor
  · simp [render, hv, hlb, hp, joinOpt_some_ok, composeRender, Except.map]
  · simp [render, hv, hlb, hp, joinOpt_some_ok, composeRender]

/-- C4 witness: with placeholder overridden to `body`, a concrete render
writes the view's output under `body` and returns the layout's output. -/
theorem spec_c4_witness :
    (render cInst cW6 0 ⟨[]⟩ ⟨[]⟩ "v.hbs" cO4).result = .ok "LAY" ∧
    (render cInst cW6 0 ⟨[]⟩ ⟨[]⟩ "v.hbs" cO4).ctx = [("body", "V")] := by
  obtain ⟨h1, h2⟩ :=
    spec_c4_render_with_layout cInst cW6 0 ⟨[]⟩ ⟨[]⟩ "v.hbs" cO4
      ⟨"V"⟩ ⟨"LAY"⟩ (some (.partialMap [("x", ⟨"bodyB"⟩)])) rfl rfl rfl
  exact ⟨h1.trans rfl, h2.trans rfl⟩

/-- Splitting a directory's file list splits the fold. -/
theorem runFiles_append (w : World) (d : String) (l1 l2 : List String)
    (ts : PartialMap) :
    runFiles w d (l1 ++ l2) ts =
      match runFiles w d l1 ts with
      | .error e => .error e
      | .ok ts' => runFiles w d l2 ts' := by
  induction l1 generalizing ts with
  | nil => rfl
  | cons f rest ih =>
    simp only [List.cons_append, runFiles]
    cases hr : readTemplate w (resolveIn w.cwd d f) with
    | error e => rfl
    | ok t =>
      simp only []
      exact ih _

/-- Files that do not derive the name `x` leave the map's entry for `x`
alone. -/
theorem runFiles_skip (w : World) (d x : String) :
    ∀ (l : List String) (ts out : PartialMap),
      (∀ g ∈ l, stripExt g ≠ x) →
      runFiles w d l ts = .ok out →
      out.lookup x = ts.lookup x := by
  intro l
  induction l with
  | nil =>
    intro ts out hl h
    unfold runFiles at h
    simp at h
    rw [h]
  | cons f rest ih =>
    intro ts out hl h
    unfold runFiles at h
    cases hr : readTemplate w (resolveIn w.cwd d f) with
    | error e => rw [hr] at h; simp at h
    | ok t =>
      rw [hr] at h
      simp only [] at h
      have := ih (setKey ts (stripExt f) t) out
        (fun g hg => hl g (List.mem_cons_of_mem f hg)) h
      rw [this,
        lookup_setKey_ne _ _ _ _ (fun he => hl f (List.mem_cons_self f rest) he.symm)]

/-- C6: when directories `[A, B]` both contain a template file deriving
the partial name `x`, the resolved map's entry for `x` is the compiled
template of B's file: directories are merged in caller order and the later
directory wins per key.  (`fB` is B's last file deriving `x`; within one
directory the source's file reads race, so only the cross-directory
override is deterministic.) -/
theorem spec_c6_later_directory_wins (w : World) (A B x bodyB : String)
    (m : PartialMap) (filesA filesB pre post : List String) (fA fB : String)
    (hm : findTemplates w [A, B] = .ok m)
    (hga : w.globHbs A = .ok filesA)
    (hfa : fA ∈ filesA) (hxa : stripExt fA = x)
    (hgb : w.globHbs B = .ok filesB)
    (hsplit : filesB = pre ++ fB :: post)
    (hxb : stripExt fB = x)
    (hpost : ∀ g ∈ post, stripExt g ≠ x)
    (hread : w.readFile (resolveIn w.cwd B fB) = .ok bodyB) :
    m.lookup x = some ⟨bodyB⟩ := by
  unfold findTemplates runDirs at hm
  rw [hga] at hm
  simp only [] at hm
  cases h1 : runFiles w A filesA [] with
  | error e => rw [h1] at hm; simp at hm
  | ok tsA =>
    rw [h1] at hm
    simp only [] at hm
    unfold runDirs at hm
    rw [hgb] at hm
    simp only [] at hm
    cases h2 : runFiles w B filesB tsA with
    | error e => rw [h2] at hm; simp at hm
    | ok tsB =>
      rw [h2] at hm
      simp only [] at hm
      unfold runDirs at hm
      simp at hm
      subst hm
      rw [hsplit] at h2
      rw [runFiles_append] at h2
      cases h3 : runFiles w B pre tsA with
      | error e => rw [h3] at h2; simp at h2
      | ok tsP =>
        rw [h3] at h2
        simp only [] at h2
        unfold runFiles at h2
        unfold readTemplate at h2
        rw [hread] at h2
        simp only [] at h2
        rw [hxb] at h2
        have := runFiles_skip w B x post _ _ hpost h2
        rw [this, lookup_setKey_self]

/-- C6 witness: directory A holds `x.hbs`, directory B holds
`x.handlebars`; the resolved `x` is B's compiled template. -/
theorem spec_c6_witness :
    (([("x", (⟨"bodyB"⟩ : Tpl))] : PartialMap).lookup "x" = some ⟨"bodyB"⟩) ∧
    findTemplates cW6 ["A", "B"] = .ok [("x", ⟨"bodyB"⟩)] := by
  refine ⟨?_, rfl⟩
  exact spec_c6_later_directory_wins cW6 "A" "B" "x" "bodyB"
    [("x", ⟨"bodyB"⟩)] ["x.hbs"] ["x.handlebars"] [] [] "x.hbs" "x.handlebars"
    rfl rfl (List.mem_singleton.mpr rfl) rfl rfl rfl rfl
    (by intro g hg; cases hg) rfl

/-- C2 (amended to the `src/unnamed/part_000` variant): a fetched response
whose `cache-control` carries `no-store`, `no-cache` or `must-revalidate`
is not cached — the store is unchanged — so a later `getLayout` for the
same URL fetches again, regardless of the instance freshness defaults. -/
theorem spec_c2_no_store_not_served (inst : Instance) (w : World)
    (now now' : Nat) (rc : Cache Tpl) (u : LayoutUrl)
    (hu : u.truthy = true)
    (hmiss : rc.hasUsable (layoutDesc inst u).url now = false)
    (resp : Response) (cc : String)
    (hf : w.fetch (layoutDesc inst u) = .ok resp)
    (hs : resp.statusCode < 400)
    (hcc : resp.headers.lookup "cache-control" = some cc)
    (hdir : ((parseCacheControl cc).noStore || (parseCacheControl cc).noCache ||
             (parseCacheControl cc).mustRevalidate) = true)
    (hnow : now ≤ now') :
    (getLayout inst w now rc u false).fetches = 1 ∧
    (getLayout inst w now rc u false).cache = rc ∧
    (getLayout inst w now' (getLayout inst w now rc u false).cache u false).fetches = 1 := by
  have heff : effLayoutUrl inst u = u := by simp [effLayoutUrl, hu]
  have hreq : requestTemplate w (layoutDesc inst u) = .ok (⟨resp.body⟩, some cc) := by
    unfold requestTemplate
    rw [hf]
    simp only []
    rw [if_neg (show ¬resp.statusCode ≥ 400 by omega)]
    rw [hcc]
  have hfr : effectiveFreshness inst.remoteDefaults (some cc) = none := by
    unfold effectiveFreshness
    simp only []
    rw [if_pos hdir]
  have hG1 : getLayout inst w now rc u false =
      ⟨.ok ⟨resp.body⟩, some (layoutDesc inst u), rc, 1⟩ := by
    simp only [getLayout, heff, hu, if_true, Bool.false_eq_true, if_false]
    rw [wrap_at_miss _ _ _ _ _ hmiss]
    simp [Cache.refresh, hreq, hfr]
  refine ⟨by rw [hG1], by rw [hG1], ?_⟩
  rw [hG1]
  have hmiss' := hasUsable_mono rc (layoutDesc inst u).url now now' hnow hmiss
  simp only [getLayout, heff, hu, if_true, Bool.false_eq_true, if_false]
  rw [wrap_at_miss _ _ _ _ _ hmiss']
  exact refresh_invokes_loader _ _ _ _ _

/-- C2 witness: a concrete `no-store` response is fetched, not cached, and
fetched again on the next call. -/
theorem spec_c2_witness :
    (getLayout cInst cWns 0 ⟨[]⟩ (.str "http://x/l") false).fetches = 1 ∧
    (getLayout cInst cWns 0 ⟨[]⟩ (.str "http://x/l") false).cache = (⟨[]⟩ : Cache Tpl) ∧
    (getLayout cInst cWns 5 (getLayout cInst cWns 0 ⟨[]⟩ (.str "http://x/l") false).cache
      (.str "http://x/l") false).fetches = 1 :=
  spec_c2_no_store_not_served cInst cWns 0 5 ⟨[]⟩ (.str "http://x/l")
    (by decide) rfl ⟨200, [("cache-control", "no-store")], "L"⟩ "no-store"
    rfl (by decide) rfl (by decide) (by decide)

/-- C2 counterexample: in the `src/index.js` variant, `requestTemplate`
never reads the response headers, so a `no-store` response is cached with
the instance defaults and the next call for the same URL is served from
the cache without re-fetching — the claim fails on that variant. -/
theorem spec_c2_counterexample :
    (parseCacheControl "no-store").noStore = true ∧
    (getLayoutIx cInst cWns 0 ⟨[]⟩ (.str "http://x/l") false).fetches = 1 ∧
    (getLayoutIx cInst cWns 30 (getLayoutIx cInst cWns 0 ⟨[]⟩ (.str "http://x/l") false).cache
      (.str "http://x/l") false).fetches = 0 ∧
    (getLayoutIx cInst cWns 30 (getLayoutIx cInst cWns 0 ⟨[]⟩ (.str "http://x/l") false).cache
      (.str "http://x/l") false).result = .ok ⟨"L"⟩ :=
  ⟨by decide, rfl, rfl, rfl⟩

/-- When the underlying request fails, `getLayout` reports that failure
(whether the store was bypassed or missed). -/
theorem getLayout_request_error (inst : Instance) (w : World) (now : Nat)
    (rc : Cache Tpl) (u : LayoutUrl) (off : Bool)
    (hu : u.truthy = true) (e : Err)
    (hreq : requestTemplate w (layoutDesc inst u) = .error e)
    (hmiss : off = true ∨ rc.hasUsable (layoutDesc inst u).url now = false) :
    (getLayout inst w now rc u off).result = .error e := by
  have heff : effLayoutUrl inst u = u := by simp [effLayoutUrl, hu]
  cases off with
  | true =>
    simp [getLayout, heff, hu, hreq, Except.map]
  | false =>
    have hm : rc.hasUsable (layoutDesc inst u).url now = false := by
      cases hmiss with
      | inl h => cases h
      | inr h => exact h
    simp only [getLayout, heff, hu, if_true, Bool.false_eq_true, if_false]
    rw [wrap_at_miss _ _ _ _ _ hm]
    simp [Cache.refresh, hreq]

/-- A truthy non-function layout stays truthy when projected to the
`getLayout` argument. -/
theorem toUrl_truthy (layout : LayoutVal)
    (hl : layout.truthy = true) (hnf : layout.isFunc = false) :
    layout.toUrl.truthy = true := by
  cases layout with
  | falsy => cases hl
  | url s => exact hl
  | desc r => rfl
  | func t => cases hnf

/-- A failing layout request surfaces as the layout task's error. -/
theorem layoutBranch_request_error (inst : Instance) (w : World) (now : Nat)
    (rc : Cache Tpl) (layout : LayoutVal) (off : Bool)
    (hl : layout.truthy = true) (hnf : layout.isFunc = false) (e : Err)
    (hreq : requestTemplate w (layoutDesc inst layout.toUrl) = .error e)
    (hmiss : off = true ∨
      rc.hasUsable (layoutDesc inst layout.toUrl).url now = false) :
    (layoutBranch inst w now rc layout off).1 = some (.error e) := by
  have hut := toUrl_truthy layout hl hnf
  cases layout with
  | falsy => cases hl
  | func t => cases hnf
  | url s =>
    simp [layoutBranch, hl,
      getLayout_request_error inst w now rc _ off hut e hreq hmiss]
  | desc r =>
    simp [layoutBranch, hl,
      getLayout_request_error inst w now rc _ off hut e hreq hmiss]

/-- C1 (amended to the `src/unnamed/part_000` variant): when the layout is
resolved by a remote fetch and the transport answers with HTTP status
≥ 400, the render's callback receives an error and no rendered text, and
the context is left untouched (the body is rejected before compilation). -/
theorem spec_c1_layout_http_error_fails_render (inst : Instance) (w : World)
    (now : Nat) (rc : Cache Tpl) (fc : Cache ForeverVal) (fp : String)
    (o : RenderIn)
    (hl : (effLayout inst o).truthy = true)
    (hnf : (effLayout inst o).isFunc = false)
    (resp : Response)
    (hf : w.fetch (layoutDesc inst (effLayout inst o).toUrl) = .ok resp)
    (hs : 400 ≤ resp.statusCode)
    (hmiss : o.cacheOff = true ∨
      rc.hasUsable (layoutDesc inst (effLayout inst o).toUrl).url now = false) :
    (∃ e, (render inst w now rc fc fp o).result = .error e) ∧
    (render inst w now rc fc fp o).ctx = o.ctx := by
  have hreq : requestTemplate w (layoutDesc inst (effLayout inst o).toUrl) =
      .error (.httpStatus resp.statusCode) := by
    unfold requestTemplate
    rw [hf]
    simp only []
    rw [if_pos hs]
  have hlb := layoutBranch_request_error inst w now rc (effLayout inst o)
    o.cacheOff hl hnf _ hreq hmiss
  constructor
  · cases hv : (getView w fc fp o.cacheOff).result with
    | error e => exact ⟨e, by simp [render, hv, Except.map]⟩
    | ok v =>
      exact ⟨.httpStatus resp.statusCode,
        by simp [render, hv, hlb, joinOpt_some_error, Except.map]⟩
  · cases hv : (getView w fc fp o.cacheOff).result with
    | error e => simp [render, hv]
    | ok v => simp [render, hv, hlb, joinOpt_some_error]

/-- C1 witness: a concrete 404 on the layout URL fails the whole render
with the HTTP-status error and leaves the context empty. -/
theorem spec_c1_witness :
    (∃ e, (render cInst cW404 0 ⟨[]⟩ ⟨[]⟩ "v.hbs" cO).result = .error e) ∧
    (render cInst cW404 0 ⟨[]⟩ ⟨[]⟩ "v.hbs" cO).ctx = [] := by
  have h := spec_c1_layout_http_error_fails_render cInst cW404 0 ⟨[]⟩ ⟨[]⟩
    "v.hbs" cO (by decide) (by decide) ⟨404, [], "NF"⟩ rfl (by decide)
    (Or.inr rfl)
  exact ⟨h.1, h.2⟩

/-- C1 counterexample: in the `src/index.js` variant the status code is
never checked — a render whose layout fetch returns HTTP 404 succeeds, and
the rendered text is produced from the compiled 404 response body. -/
theorem spec_c1_counterexample :
    (cW404.fetch (layoutDesc cInst (.str "http://x/l"))).toOption.map
      Response.statusCode = some 404 ∧
    (renderIx cInst cW404 0 ⟨[]⟩ ⟨[]⟩ "v.hbs" cO).result = .ok "NF" :=
  ⟨rfl, rfl⟩

/-- C8 (amended): the forever-store key of `getPartials` is the
order-sensitive concatenation `partialsDir.join('')`: a second call whose
directory list has the same concatenation — however it is split into
elements — is served from the first call's entry without a scan, while a
key with a different concatenation is not served by that entry and scans
again.  (Reordering a list can coincide with the same concatenation, so
reordered lists do not always get distinct entries; see the
counterexample.) -/
theorem spec_c8_partials_cache_key_is_join (inst : Instance) (w : World)
    (fc : Cache ForeverVal) (d1 d2 d3 : PDirVal)
    (h2 : d2.truthy = true) (h3 : d3.truthy = true)
    (v : ForeverVal)
    (hstored : (getPartials inst w fc d1 false).cache.entries.lookup
        (String.join d1.toDirs) = some ⟨v, none, none⟩)
    (hj : String.join d2.toDirs = String.join d1.toDirs)
    (hd3 : (getPartials inst w fc d1 false).cache.entries.lookup
        (String.join d3.toDirs) = none) :
    (getPartials inst w (getPartials inst w fc d1 false).cache d2 false).scans = 0 ∧
    (getPartials inst w (getPartials inst w fc d1 false).cache d2 false).result = .ok v ∧
    (getPartials inst w (getPartials inst w fc d1 false).cache d3 false).scans = 1 := by
  have he2 := effPDir_truthy inst d2 h2
  have he3 := effPDir_truthy inst d3 h3
  set C := (getPartials inst w fc d1 false).cache with hC
  refine ⟨?_, ?_, ?_⟩
  · simp only [getPartials, he2, h2, if_true, Bool.false_eq_true, if_false]
    unfold Cache.wrap
    rw [hj, hstored]
    simp [usableAt]
  · simp only [getPartials, he2, h2, if_true, Bool.false_eq_true, if_false]
    unfold Cache.wrap
    rw [hj, hstored]
    simp [usableAt]
  · simp only [getPartials, he3, h3, if_true, Bool.false_eq_true, if_false]
    unfold Cache.wrap
    rw [hd3]
    exact refresh_invokes_loader _ _ _ _ _

/-- C8 witness: `["A", "B"]` and `["AB"]` concatenate identically and share
one entry (no second scan); key `"BA"` differs and scans afresh. -/
theorem spec_c8_witness :
    (getPartials cInst cWempty
      (getPartials cInst cWempty ⟨[]⟩ (.list ["A", "B"]) false).cache
      (.str "AB") false).scans = 0 ∧
    (getPartials cInst cWempty
      (getPartials cInst cWempty ⟨[]⟩ (.list ["A", "B"]) false).cache
      (.str "AB") false).result = .ok (.partialMap []) ∧
    (getPartials cInst cWempty
      (getPartials cInst cWempty ⟨[]⟩ (.list ["A", "B"]) false).cache
      (.str "BA") false).scans = 1 :=
  spec_c8_partials_cache_key_is_join cInst cWempty ⟨[]⟩ (.list ["A", "B"])
    (.str "AB") (.str "BA") (by decide) (by decide) (.partialMap [])
    rfl rfl rfl

/-- C8 counterexample: `["a", "aa"]` and its reordering `["aa", "a"]`
concatenate to the same key, so the reordered list is served from the same
cache entry — reordered lists do not always get distinct entries, refuting
the claim as stated. -/
theorem spec_c8_counterexample :
    (["a", "aa"] : List String) ≠ ["aa", "a"] ∧
    String.join ["a", "aa"] = String.join ["aa", "a"] ∧
    (getPartials cInst cWempty
      (getPartials cInst cWempty ⟨[]⟩ (.list ["a", "aa"]) false).cache
      (.list ["aa", "a"]) false).scans = 0 ∧
    (getPartials cInst cWempty
      (getPartials cInst cWempty ⟨[]⟩ (.list ["a", "aa"]) false).cache
      (.list ["aa", "a"]) false).result =
      (getPartials cInst cWempty ⟨[]⟩ (.list ["a", "aa"]) false).result :=
  ⟨by decide, rfl, rfl, rfl⟩

end RH
